import Mathlib

/-!
# Verification of the bmrot bitmap-font descriptor rotator

Shallow embedding of the Go program (data model, diagnostic serializer,
90°-clockwise rotation, and the BMFont text parser) together with proofs
of the specification claims.

Modelling conventions:
* Go `int`/`rune` fields are modelled as `Int` (no claim depends on
  64-bit wrap-around behaviour).
* Go maps (`map[int]Page`, `map[rune]Char`, `map[CharPair]Kerning`) are
  modelled as association lists carrying the map's entries in one
  iteration order.  A Go map value determines its entries only up to
  permutation: iteration order is not part of the value, so two lists
  that are permutations of each other represent the same Go map.
* `fmt.Sprintf` with `%d` is modelled by `toString : Int → String`,
  which produces the same decimal text as Go's `%d` verb.
-/

namespace image

/-- Embeds Go's `image.Point`. -/
structure Point where
  X : Int
  Y : Int
deriving DecidableEq, Repr

/-- Embeds Go's `image.Pt`. -/
def Pt (x y : Int) : Point :=
  ⟨x, y⟩

end image

/-- Embeds `Padding` (fields in source order `Up, Right, Down, Left`). -/
structure Padding where
  Up : Int
  Right : Int
  Down : Int
  Left : Int
deriving DecidableEq, Inhabited, Repr

/-- Embeds `Spacing` (fields in source order `Horizontal, Vertical`). -/
structure Spacing where
  Horizontal : Int
  Vertical : Int
deriving DecidableEq, Inhabited, Repr

/-- Embeds `Info`. -/
structure Info where
  Face : String
  Size : Int
  Bold : Bool
  Italic : Bool
  Charset : String
  Unicode : Bool
  StretchH : Int
  Smooth : Bool
  AA : Int
  Padding : Padding
  Spacing : Spacing
  Outline : Int
deriving DecidableEq, Inhabited, Repr

/-- Embeds Go's `type ChannelInfo int` (codes 0..4 in the file format). -/
abbrev ChannelInfo := Int

/-- Embeds `Common`. -/
structure Common where
  LineHeight : Int
  Base : Int
  ScaleW : Int
  ScaleH : Int
  Packed : Bool
  AlphaChannel : ChannelInfo
  RedChannel : ChannelInfo
  GreenChannel : ChannelInfo
  BlueChannel : ChannelInfo
deriving DecidableEq, Inhabited, Repr

/-- Embeds `Page`. -/
structure Page where
  ID : Int
  File : String
deriving DecidableEq, Inhabited, Repr

/-- Embeds Go's `type Channel int` (bit flags Blue=1,Green=2,Red=4,Alpha=8). -/
abbrev Channel := Int

/-- Embeds the glyph record `Char` of the source.  The name `Char` itself is
taken by Lean's character type, hence the prime. -/
structure Char' where
  ID : Int
  X : Int
  Y : Int
  Width : Int
  Height : Int
  XOffset : Int
  YOffset : Int
  XAdvance : Int
  Page : Int
  Channel : Channel
deriving DecidableEq, Inhabited, Repr

/-- Embeds `CharPair`. -/
structure CharPair where
  First : Int
  Second : Int
deriving DecidableEq, Inhabited, Repr

/-- Embeds `Kerning`. -/
structure Kerning where
  Amount : Int
deriving DecidableEq, Inhabited, Repr

/-- Embeds `Descriptor`.  Each Go map is held as an association list of its
entries in one iteration order (see the module comment). -/
structure Descriptor where
  Info : Info
  Common : Common
  Pages : List (Int × Page)
  Chars : List (Int × Char')
  Kerning : List (CharPair × Kerning)
deriving DecidableEq, Inhabited, Repr

/-- Embeds `boolToInt`. -/
def boolToInt (b : Bool) : Int :=
  if b then 1 else 0

/-- Embeds the `Info.String` method (the `info ...` output line). -/
def Info.render (i : Info) : String :=
  "info face=\"" ++ i.Face ++ "\" size=" ++ toString i.Size
    ++ " bold=" ++ toString (boolToInt i.Bold)
    ++ " italic=" ++ toString (boolToInt i.Italic)
    ++ " charset=\"" ++ i.Charset
    ++ "\" unicode=" ++ toString (boolToInt i.Unicode)
    ++ " stretchH=" ++ toString i.StretchH
    ++ " smooth=" ++ toString (boolToInt i.Smooth)
    ++ " aa=" ++ toString i.AA
    ++ " padding=" ++ toString i.Padding.Up ++ "," ++ toString i.Padding.Right
    ++ "," ++ toString i.Padding.Down ++ "," ++ toString i.Padding.Left
    ++ " spacing=" ++ toString i.Spacing.Horizontal ++ "," ++ toString i.Spacing.Vertical
    ++ " outline=" ++ toString i.Outline

/-- Embeds `printCommon` (the `common ...` output line); the `pages=` field is
computed from the live page mapping `p`, exactly as `len(*p)` in the source. -/
def printCommon (c : Common) (p : List (Int × Page)) : String :=
  "common lineHeight=" ++ toString c.LineHeight
    ++ " base=" ++ toString c.Base
    ++ " scaleW=" ++ toString c.ScaleW
    ++ " scaleH=" ++ toString c.ScaleH
    ++ " pages=" ++ toString (p.length : Int)
    ++ " packed=" ++ toString (boolToInt c.Packed)
    ++ " alphaChnl=" ++ toString c.AlphaChannel
    ++ " redChnl=" ++ toString c.RedChannel
    ++ " greenChnl=" ++ toString c.GreenChannel
    ++ " blueChnl=" ++ toString c.BlueChannel

/-- Embeds the `Page.String` method (the `page ...` output line). -/
def Page.render (p : Page) : String :=
  "page id=" ++ toString p.ID ++ " file=\"" ++ p.File ++ "\""

/-- Embeds the `Char.String` method (the `char ...` output line). -/
def Char'.render (c : Char') : String :=
  "char id=" ++ toString c.ID ++ " x=" ++ toString c.X ++ " y=" ++ toString c.Y
    ++ " width=" ++ toString c.Width ++ " height=" ++ toString c.Height
    ++ " xoffset=" ++ toString c.XOffset ++ " yoffset=" ++ toString c.YOffset
    ++ " xadvance=" ++ toString c.XAdvance ++ " page=" ++ toString c.Page
    ++ " chnl=" ++ toString c.Channel

/-- Embeds the `Descriptor.String` method.  The Go code accumulates the page
block and the char block with `+=` over a map range; here the accumulation
folds over the entry list in its iteration order. -/
def Descriptor.render (d : Descriptor) : String :=
  let pages := d.Pages.foldl (fun acc kp => acc ++ kp.2.render ++ "\n") ""
  let chars := d.Chars.foldl (fun acc kc => acc ++ kc.2.render ++ "\n")
    ("chars count=" ++ toString (d.Chars.length : Int) ++ "\n")
  d.Info.render ++ "\n" ++ printCommon d.Common d.Pages ++ "\n" ++ pages ++ chars

/-- Embeds the `Common.Scale` method (which reads `c.ScaleH` twice). -/
def Common.Scale (c : Common) : image.Point :=
  image.Pt c.ScaleH c.ScaleH

/-- The per-glyph body of the `Rotate` loop, at post-swap canvas width `sW`.
Go's tuple assignments evaluate all right-hand sides first, so `X`/`Y` read the
old `Y`/`Height`/`X`, the offsets swap, the box swaps, and only then is
`XAdvance` recomputed from the already-new `Width` and `XOffset`. -/
def rotChar (sW : Int) (c : Char') : Char' :=
  let c1 := { c with X := sW - c.Y - c.Height, Y := c.X }
  let c2 := { c1 with XOffset := c1.YOffset, YOffset := c1.XOffset }
  let c3 := { c2 with Width := c2.Height, Height := c2.Width }
  { c3 with XAdvance := c3.Width + c3.XOffset }

/-- Embeds the `Descriptor.Rotate` method.  The Go loop writes each rotated
glyph back at key `char.ID` (`d.Chars[char.ID] = char`); `rotChar` preserves
`ID`, so under the parser-established invariant that every stored glyph's `ID`
equals its map key, the loop rewrites each entry in place, which is what the
entry-wise map below does.  (On a map violating that invariant the Go loop
mutates the map while ranging over it, which Go leaves unspecified.)
The line-height fold starts from `0` and keeps the larger value, exactly as
`lh := 0; if lh < char.Height { lh = char.Height }` does. -/
def Descriptor.Rotate (d : Descriptor) : Descriptor :=
  let info := { d.Info with
    Padding := ⟨d.Info.Padding.Left, d.Info.Padding.Up, d.Info.Padding.Right, d.Info.Padding.Down⟩
    Spacing := ⟨d.Info.Spacing.Vertical, d.Info.Spacing.Horizontal⟩ }
  let sW := d.Common.ScaleH
  let sH := d.Common.ScaleW
  let chars := d.Chars.map fun kc => ((rotChar sW kc.2).ID, rotChar sW kc.2)
  let lh := chars.foldl (fun a kc => if a < kc.2.Height then kc.2.Height else a) (0 : Int)
  { d with
    Info := info
    Common := { d.Common with ScaleW := sW, ScaleH := sH, LineHeight := lh, Base := lh }
    Chars := chars }

/-!
## Text parser, modelled from the spec

The function `parseDescriptor` of the repository is not among the provided
source files (only its callers `LoadDescriptor`/`ReadDescriptor` and `main`
are), so the parser below is modelled from the specification's grammar:
lines; each non-empty line begins with a bare tag keyword; the remainder is
whitespace-separated `key=value` attributes whose value is an unquoted token
or a double-quoted string; unknown tags and unknown keys are ignored;
malformed required integers and unterminated quoted strings fail with a
malformed-value error identifying tag, key and line; keyed storage is
last-write-wins.
-/

/-- Modelled from the spec: an attribute value, either a double-quoted string
or an unquoted raw token. -/
inductive AttrValue where
  | quoted (s : String)
  | raw (s : String)
deriving DecidableEq, Repr

/-- Modelled from the spec: the error kinds of §7 (`MalformedValue`,
`SourceUnavailable`); the pure parser only ever produces the former. -/
inductive ParseErrorKind where
  | malformedValue
  | sourceUnavailable
deriving DecidableEq, Repr

/-- Modelled from the spec: a parse error identifying tag, key and line. -/
structure ParseError where
  kind : ParseErrorKind
  tag : String
  key : String
  line : String
deriving DecidableEq, Repr

/-- A malformed-value error for attribute `key` of `tag` on `line`. -/
def mkErr (tag key line : String) : ParseError :=
  ⟨.malformedValue, tag, key, line⟩

/-- Blank characters separating attributes. -/
def isSpaceChar (c : Char) : Bool :=
  c == ' ' || c == '\t'

/-- Characters allowed inside an attribute key (anything up to `=` or blank). -/
def keyChar (c : Char) : Bool :=
  !(isSpaceChar c) && c != '='

/-- Decimal digit value. -/
def digitVal (c : Char) : Option Nat :=
  if '0' ≤ c ∧ c ≤ '9' then some (c.toNat - '0'.toNat) else none

/-- Accumulate decimal digits; fails on any non-digit. -/
def parseNatAux (acc : Nat) : List Char → Option Nat
  | [] => some acc
  | c :: rest =>
    match digitVal c with
    | some dv => parseNatAux (acc * 10 + dv) rest
    | none => none

/-- Modelled from the spec: decode a decimal integer token (optional sign). -/
def parseIntToken (s : String) : Option Int :=
  match s.data with
  | [] => none
  | '-' :: rest =>
    if rest.isEmpty then none else (parseNatAux 0 rest).map fun n => -(n : Int)
  | cs => (parseNatAux 0 cs).map fun n => (n : Int)

/-- Split a character list at every occurrence of `sep`. -/
def splitChars (sep : Char) (acc : List Char) : List Char → List (List Char)
  | [] => [acc.reverse]
  | c :: rest =>
    if c = sep then acc.reverse :: splitChars sep [] rest
    else splitChars sep (c :: acc) rest

/-- The lines of the input stream. -/
def splitLines (s : String) : List String :=
  (splitChars '\n' [] s.data).map List.asString

/-- The comma-separated fields of a `padding`/`spacing` value. -/
def splitCommas (s : String) : List String :=
  (splitChars ',' [] s.data).map List.asString

/-- Modelled from the spec: scan one attribute value.  A leading `"` starts a
quoted string running to the next `"` (`none` when unterminated); otherwise
the value is the raw token up to the next blank. -/
def scanValue : List Char → Option (AttrValue × List Char)
  | '"' :: rest =>
    let q := rest.span fun c => c != '"'
    match q.2 with
    | [] => none
    | _ :: after => some (.quoted q.1.asString, after)
  | cs =>
    let q := cs.span fun c => !(isSpaceChar c)
    some (.raw q.1.asString, q.2)

/-- Modelled from the spec: scan the `key=value` attributes of a line's
remainder.  Bare tokens without `=` are skipped; `none` reports an
unterminated quoted string.  The fuel argument bounds the recursion; every
step consumes at least one character, so `length + 1` fuel (as supplied by
`scanAttrs`) never runs out. -/
def scanAttrsF : Nat → List Char → Option (List (String × AttrValue))
  | 0, _ => some []
  | _ + 1, [] => some []
  | fuel + 1, c :: rest =>
    if isSpaceChar c then scanAttrsF fuel rest
    else
      let key := ((c :: rest).takeWhile keyChar).asString
      match (c :: rest).dropWhile keyChar with
      | '=' :: rest2 =>
        match scanValue rest2 with
        | none => none
        | some (v, rem) => (scanAttrsF fuel rem).map fun attrs => (key, v) :: attrs
      | rem => scanAttrsF fuel rem

/-- Scan a full attribute list. -/
def scanAttrs (cs : List Char) : Option (List (String × AttrValue)) :=
  scanAttrsF (cs.length + 1) cs

/-- The integer of an attribute value; quoted strings never decode as ints. -/
def attrInt (v : AttrValue) : Option Int :=
  match v with
  | .quoted _ => none
  | .raw s => parseIntToken s

/-- The string of an attribute value. -/
def attrStr (v : AttrValue) : String :=
  match v with
  | .quoted s => s
  | .raw s => s

/-- The comma-separated integer list of an attribute value. -/
def attrIntList (v : AttrValue) : Option (List Int) :=
  match v with
  | .quoted _ => none
  | .raw s => (splitCommas s).mapM parseIntToken

/-- Decode a required integer attribute or fail with a malformed-value error. -/
def intOf (tag key line : String) (v : AttrValue) : Except ParseError Int :=
  match attrInt v with
  | some n => .ok n
  | none => .error (mkErr tag key line)

/-- Decode a required `0`/`1` boolean attribute (any nonzero counts as true). -/
def boolOf (tag key line : String) (v : AttrValue) : Except ParseError Bool :=
  (intOf tag key line v).map fun n => n != 0

/-- The tag keywords the parser recognizes. -/
def knownTags : List String :=
  ["info", "common", "page", "chars", "char", "kernings", "kerning"]

/-- The scalar integer-valued attribute keys required (decoded as integer
tokens) per recognized tag; the `0`/`1` boolean attributes are included since
they are integer tokens (§4.1). -/
def requiredIntKeys : String → List String
  | "info" => ["size", "bold", "italic", "unicode", "stretchH", "smooth", "aa", "outline"]
  | "common" =>
    ["lineHeight", "base", "scaleW", "scaleH", "packed", "alphaChnl", "redChnl", "greenChnl", "blueChnl"]
  | "page" => ["id"]
  | "chars" => ["count"]
  | "char" => ["id", "x", "y", "width", "height", "xoffset", "yoffset", "xadvance", "page", "chnl"]
  | "kernings" => ["count"]
  | "kerning" => ["first", "second", "amount"]
  | _ => []

/-- The 4-integer comma-separated `padding` value, when well-formed. -/
def intList4 (v : AttrValue) : Option (Int × Int × Int × Int) :=
  match attrIntList v with
  | some [u, r, dn, l] => some (u, r, dn, l)
  | _ => none

/-- The 2-integer comma-separated `spacing` value, when well-formed. -/
def intList2 (v : AttrValue) : Option (Int × Int) :=
  match attrIntList v with
  | some [h, vv] => some (h, vv)
  | _ => none

/-- Store a decoded integer attribute into the `Info` record (booleans are
nonzero integers). -/
def setInfoField (i : Info) (k : String) (n : Int) : Info :=
  if k = "size" then { i with Size := n }
  else if k = "bold" then { i with Bold := n != 0 }
  else if k = "italic" then { i with Italic := n != 0 }
  else if k = "unicode" then { i with Unicode := n != 0 }
  else if k = "stretchH" then { i with StretchH := n }
  else if k = "smooth" then { i with Smooth := n != 0 }
  else if k = "aa" then { i with AA := n }
  else if k = "outline" then { i with Outline := n }
  else i

/-- Modelled from the spec: fold one `info` attribute into the record
(§4.1: strings for `face`/`charset`, 4 comma-separated ints for `padding`,
2 for `spacing`, `0`/`1` integer tokens for the flags; unknown keys
ignored). -/
def applyInfoAttr (line : String) (i : Info) (kv : String × AttrValue) : Except ParseError Info :=
  if kv.1 ∈ requiredIntKeys "info" then (intOf "info" kv.1 line kv.2).map (setInfoField i kv.1)
  else if kv.1 = "face" then .ok { i with Face := attrStr kv.2 }
  else if kv.1 = "charset" then .ok { i with Charset := attrStr kv.2 }
  else if kv.1 = "padding" then
    match intList4 kv.2 with
    | some q => .ok { i with Padding := ⟨q.1, q.2.1, q.2.2.1, q.2.2.2⟩ }
    | none => .error (mkErr "info" kv.1 line)
  else if kv.1 = "spacing" then
    match intList2 kv.2 with
    | some q => .ok { i with Spacing := ⟨q.1, q.2⟩ }
    | none => .error (mkErr "info" kv.1 line)
  else .ok i

/-- Store a decoded integer attribute into the `Common` record. -/
def setCommonField (c : Common) (k : String) (n : Int) : Common :=
  if k = "lineHeight" then { c with LineHeight := n }
  else if k = "base" then { c with Base := n }
  else if k = "scaleW" then { c with ScaleW := n }
  else if k = "scaleH" then { c with ScaleH := n }
  else if k = "packed" then { c with Packed := n != 0 }
  else if k = "alphaChnl" then { c with AlphaChannel := n }
  else if k = "redChnl" then { c with RedChannel := n }
  else if k = "greenChnl" then { c with GreenChannel := n }
  else if k = "blueChnl" then { c with BlueChannel := n }
  else c

/-- Modelled from the spec: fold one `common` attribute into the record
(channel codes are small integers; the `pages` attribute of an input line is
not stored — the model's `Common`, like the source's, has no page counter —
so it falls under the unknown-key policy). -/
def applyCommonAttr (line : String) (c : Common) (kv : String × AttrValue) : Except ParseError Common :=
  if kv.1 ∈ requiredIntKeys "common" then (intOf "common" kv.1 line kv.2).map (setCommonField c kv.1)
  else .ok c

/-- Modelled from the spec: fold one `page` attribute into the record. -/
def applyPageAttr (line : String) (p : Page) (kv : String × AttrValue) : Except ParseError Page :=
  if kv.1 ∈ requiredIntKeys "page" then (intOf "page" kv.1 line kv.2).map fun n => { p with ID := n }
  else if kv.1 = "file" then .ok { p with File := attrStr kv.2 }
  else .ok p

/-- Store a decoded integer attribute into the glyph record. -/
def setCharField (c : Char') (k : String) (n : Int) : Char' :=
  if k = "id" then { c with ID := n }
  else if k = "x" then { c with X := n }
  else if k = "y" then { c with Y := n }
  else if k = "width" then { c with Width := n }
  else if k = "height" then { c with Height := n }
  else if k = "xoffset" then { c with XOffset := n }
  else if k = "yoffset" then { c with YOffset := n }
  else if k = "xadvance" then { c with XAdvance := n }
  else if k = "page" then { c with Page := n }
  else if k = "chnl" then { c with Channel := n }
  else c

/-- Modelled from the spec: fold one `char` attribute into the glyph record
(every recognized key is a required integer; unknown keys ignored). -/
def applyCharAttr (line : String) (c : Char') (kv : String × AttrValue) : Except ParseError Char' :=
  if kv.1 ∈ requiredIntKeys "char" then (intOf "char" kv.1 line kv.2).map (setCharField c kv.1)
  else .ok c

/-- Store a decoded integer attribute into the kerning pair/amount. -/
def setKerningField (ck : CharPair × Kerning) (k : String) (n : Int) : CharPair × Kerning :=
  if k = "first" then ({ ck.1 with First := n }, ck.2)
  else if k = "second" then ({ ck.1 with Second := n }, ck.2)
  else if k = "amount" then (ck.1, { Amount := n })
  else ck

/-- Modelled from the spec: fold one `kerning` attribute into the pair/amount. -/
def applyKerningAttr (line : String) (ck : CharPair × Kerning) (kv : String × AttrValue) :
    Except ParseError (CharPair × Kerning) :=
  if kv.1 ∈ requiredIntKeys "kerning" then (intOf "kerning" kv.1 line kv.2).map (setKerningField ck kv.1)
  else .ok ck

/-- Modelled from the spec: fold one attribute of a `chars`/`kernings` count
declaration (`count` is a required integer; the declared value is not
enforced against the records that follow). -/
def applyCountAttr (tag line : String) (n : Int) (kv : String × AttrValue) : Except ParseError Int :=
  if kv.1 ∈ requiredIntKeys tag then intOf tag kv.1 line kv.2
  else .ok n

/-- The effect of one line on the descriptor under construction. -/
inductive LineUpd where
  | skip
  | setInfo (i : Info)
  | setCommon (c : Common)
  | addPage (p : Page)
  | addChar (c : Char')
  | addKerning (cp : CharPair) (k : Kerning)
  | charsCount (n : Int)
  | kerningsCount (n : Int)
deriving DecidableEq, Repr

/-- The tag keyword beginning a line. -/
def tagOf (line : String) : String :=
  (line.data.takeWhile fun c => !(isSpaceChar c)).asString

/-- The remainder of a line after its tag. -/
def restOf (line : String) : List Char :=
  line.data.dropWhile fun c => !(isSpaceChar c)

/-- Scan a line's attributes, reporting an unterminated quoted string as a
malformed-value error on that line. -/
def scanned (tag line : String) : Except ParseError (List (String × AttrValue)) :=
  match scanAttrs (restOf line) with
  | some attrs => .ok attrs
  | none => .error (mkErr tag "" line)

/-- Modelled from the spec: parse one line into its effect.  Unknown tags
(and the empty line) contribute nothing. -/
def parseLine (line : String) : Except ParseError LineUpd :=
  match tagOf line with
  | "info" =>
    (scanned "info" line).bind fun attrs =>
      (attrs.foldlM (applyInfoAttr line) default).map .setInfo
  | "common" =>
    (scanned "common" line).bind fun attrs =>
      (attrs.foldlM (applyCommonAttr line) default).map .setCommon
  | "page" =>
    (scanned "page" line).bind fun attrs =>
      (attrs.foldlM (applyPageAttr line) default).map .addPage
  | "chars" =>
    (scanned "chars" line).bind fun attrs =>
      (attrs.foldlM (applyCountAttr "chars" line) 0).map .charsCount
  | "char" =>
    (scanned "char" line).bind fun attrs =>
      (attrs.foldlM (applyCharAttr line) default).map .addChar
  | "kernings" =>
    (scanned "kernings" line).bind fun attrs =>
      (attrs.foldlM (applyCountAttr "kernings" line) 0).map .kerningsCount
  | "kerning" =>
    (scanned "kerning" line).bind fun attrs =>
      (attrs.foldlM (applyKerningAttr line) default).map fun ck => .addKerning ck.1 ck.2
  | _ => .ok .skip

/-- Last-write-wins insertion into a keyed association list (the model of
Go's `m[key] = v`). -/
def insertKeyed [DecidableEq κ] (m : List (κ × β)) (key : κ) (v : β) : List (κ × β) :=
  if m.any fun e => e.1 = key then
    m.map fun e => if e.1 = key then (key, v) else e
  else m ++ [(key, v)]

/-- Modelled from the spec: apply one line's effect to the descriptor
(singleton `info`/`common` replaced; keyed records inserted last-write-wins;
count declarations not stored). -/
def applyUpd (d : Descriptor) : LineUpd → Descriptor
  | .skip => d
  | .setInfo i => { d with Info := i }
  | .setCommon c => { d with Common := c }
  | .addPage p => { d with Pages := insertKeyed d.Pages p.ID p }
  | .addChar c => { d with Chars := insertKeyed d.Chars c.ID c }
  | .addKerning cp k => { d with Kerning := insertKeyed d.Kerning cp k }
  | .charsCount _ => d
  | .kerningsCount _ => d

/-- The zero-valued descriptor that accumulation starts from (§4.1: missing
`info`/`common` leave zero-valued defaults). -/
def emptyDescriptor : Descriptor :=
  default

/-- Modelled from the spec: `parseDescriptor` — one sequential pass over the
lines of the input; the first malformed value aborts the parse with its
error, otherwise the accumulated descriptor is returned. -/
def parseDescriptor (input : String) : Except ParseError Descriptor :=
  (splitLines input).foldlM (fun d l => (parseLine l).map (applyUpd d)) emptyDescriptor

/-- A line of a recognized tag whose attributes scan successfully but in which
some required integer-valued attribute holds a token that does not decode as
an integer. -/
def BadIntLine (l : String) : Prop :=
  tagOf l ∈ knownTags ∧
    ∃ attrs, scanAttrs (restOf l) = some attrs ∧
      ∃ kv ∈ attrs, kv.1 ∈ requiredIntKeys (tagOf l) ∧ attrInt kv.2 = none

/-- Key `k` of a line with tag `tg` holds the malformed value `v`: a required
integer key whose token does not decode as an integer, or (on `info`) a
`padding`/`spacing` value that is not a well-formed integer list. -/
def KeyMalformed (tg k : String) (v : AttrValue) : Prop :=
  k ∈ requiredIntKeys tg ∧ attrInt v = none ∨
    tg = "info" ∧ (k = "padding" ∧ intList4 v = none ∨ k = "spacing" ∧ intList2 v = none)

/-- The parse error `e` identifies a genuine malformed value on line `l`:
either the line fails to scan (unterminated quoted string, reported with the
empty key), or `e.key` names an attribute scanned from `l` whose value is
malformed for `l`'s tag. -/
def MalformedAt (l : String) (e : ParseError) : Prop :=
  e.key = "" ∧ scanAttrs (restOf l) = none ∨
    ∃ attrs v, scanAttrs (restOf l) = some attrs ∧ (e.key, v) ∈ attrs ∧
      KeyMalformed (tagOf l) e.key v

/-!
## Concrete example values used by witnesses and counterexamples
-/

/-- The glyph of the spec's worked example:
`x=10, y=20, width=30, height=5, xoffset=1, yoffset=2` (advance 42, page 0,
channel 15). -/
def glyphEx : Char' :=
  ⟨65, 10, 20, 30, 5, 1, 2, 42, 0, 15⟩

/-- A descriptor with the spec's worked-example canvas `scaleW=256, scaleH=128`,
padding `1,2,3,4`, spacing `5,7`, one page, one glyph and one kerning pair. -/
def descEx : Descriptor :=
  { Info := { (default : Info) with Face := "Arial", Padding := ⟨1, 2, 3, 4⟩, Spacing := ⟨5, 7⟩ }
    Common := { (default : Common) with LineHeight := 64, Base := 50, ScaleW := 256, ScaleH := 128 }
    Pages := [(0, ⟨0, "sheet0.png"⟩)]
    Chars := [(65, glyphEx)]
    Kerning := [(⟨65, 66⟩, ⟨-2⟩)] }

/-- A descriptor whose single glyph has negative width `-3` (rotation turns it
into a rotated height of `-3`). -/
def dNeg : Descriptor :=
  { (default : Descriptor) with Chars := [(65, { (default : Char') with ID := 65, Width := -3 })] }

/-!
## Claims C1, C3, C4, C10: the per-field rotation rules and the Scale accessor
-/

/-- Claim C1: for every glyph of the Char mapping, `Rotate` yields a glyph
with `newX = scaleW' - oldY - oldHeight` (where `scaleW'` is the post-swap
canvas width, i.e. the rotated descriptor's `ScaleW`), `newY = oldX`,
`newWidth = oldHeight`, `newHeight = oldWidth`, `newXOffset = oldYOffset`,
`newYOffset = oldXOffset`, and `newXAdvance = newWidth + newXOffset`
(recomputed, discarding the original advance). -/
theorem claim_C1_glyph_transform (d : Descriptor) (k : Int) (c : Char')
    (hmem : (k, c) ∈ d.Chars) :
    ∃ c', (c.ID, c') ∈ d.Rotate.Chars ∧
      c'.X = d.Rotate.Common.ScaleW - c.Y - c.Height ∧
      c'.Y = c.X ∧
      c'.Width = c.Height ∧
      c'.Height = c.Width ∧
      c'.XOffset = c.YOffset ∧
      c'.YOffset = c.XOffset ∧
      c'.XAdvance = c'.Width + c'.XOffset := by
  refine ⟨rotChar d.Common.ScaleH c, ?_, rfl, rfl, rfl, rfl, rfl, rfl, rfl⟩
  exact List.mem_map_of_mem
    (fun kc => ((rotChar d.Common.ScaleH kc.2).ID, rotChar d.Common.ScaleH kc.2)) hmem

/-- Claim C1, witness: the spec's worked example — `scaleW=256, scaleH=128`
and glyph `x=10, y=20, width=30, height=5, xoffset=1, yoffset=2` rotate to
`x=103, y=10, width=5, height=30, xoffset=2, yoffset=1, xadvance=7`. -/
theorem claim_C1_glyph_transform_witness :
    ((65 : Int), glyphEx) ∈ descEx.Chars ∧
    (∃ c', (glyphEx.ID, c') ∈ descEx.Rotate.Chars ∧
      c'.X = descEx.Rotate.Common.ScaleW - glyphEx.Y - glyphEx.Height ∧
      c'.Y = glyphEx.X ∧
      c'.Width = glyphEx.Height ∧
      c'.Height = glyphEx.Width ∧
      c'.XOffset = glyphEx.YOffset ∧
      c'.YOffset = glyphEx.XOffset ∧
      c'.XAdvance = c'.Width + c'.XOffset) ∧
    descEx.Rotate.Chars = [(65, ⟨65, 103, 10, 5, 30, 2, 1, 7, 0, 15⟩)] :=
  ⟨by decide, claim_C1_glyph_transform descEx 65 glyphEx (by decide), by decide⟩

/-- Claim C3: `Rotate` permutes the padding 4-tuple clockwise
(new-up = old-left, new-right = old-up, new-down = old-right,
new-left = old-down); in particular `1,2,3,4` becomes `4,1,2,3`. -/
theorem claim_C3_padding_rotation :
    (∀ d : Descriptor,
      d.Rotate.Info.Padding.Up = d.Info.Padding.Left ∧
      d.Rotate.Info.Padding.Right = d.Info.Padding.Up ∧
      d.Rotate.Info.Padding.Down = d.Info.Padding.Right ∧
      d.Rotate.Info.Padding.Left = d.Info.Padding.Down) ∧
    descEx.Info.Padding = ⟨1, 2, 3, 4⟩ ∧
    descEx.Rotate.Info.Padding = ⟨4, 1, 2, 3⟩ :=
  ⟨fun _ => ⟨rfl, rfl, rfl, rfl⟩, rfl, rfl⟩

/-- Claim C4: `Rotate` swaps the two spacing components and swaps
`ScaleW` with `ScaleH`; in particular `scaleW=256, scaleH=128` becomes
`scaleW=128, scaleH=256` (and spacing `5,7` becomes `7,5`). -/
theorem claim_C4_spacing_and_canvas_swap :
    (∀ d : Descriptor,
      d.Rotate.Info.Spacing.Horizontal = d.Info.Spacing.Vertical ∧
      d.Rotate.Info.Spacing.Vertical = d.Info.Spacing.Horizontal ∧
      d.Rotate.Common.ScaleW = d.Common.ScaleH ∧
      d.Rotate.Common.ScaleH = d.Common.ScaleW) ∧
    descEx.Common.ScaleW = 256 ∧ descEx.Common.ScaleH = 128 ∧
    descEx.Rotate.Common.ScaleW = 128 ∧ descEx.Rotate.Common.ScaleH = 256 ∧
    descEx.Info.Spacing = ⟨5, 7⟩ ∧ descEx.Rotate.Info.Spacing = ⟨7, 5⟩ :=
  ⟨fun _ => ⟨rfl, rfl, rfl, rfl⟩, rfl, rfl, rfl, rfl, rfl, rfl⟩

/-- Claim C10: the `Scale` accessor returns the point `(ScaleH, ScaleH)` —
`ScaleW` is never consulted — so it equals `(ScaleW, ScaleH)` exactly when
`ScaleW = ScaleH`. -/
theorem claim_C10_scale_accessor :
    ∀ c : Common,
      (c.Scale).X = c.ScaleH ∧ (c.Scale).Y = c.ScaleH ∧
      (∀ w : Int, ({ c with ScaleW := w } : Common).Scale = c.Scale) ∧
      (c.Scale = image.Pt c.ScaleW c.ScaleH ↔ c.ScaleW = c.ScaleH) := by
  intro c
  refine ⟨rfl, rfl, fun _ => rfl, fun h => ?_, fun h => ?_⟩
  · exact (congrArg image.Point.X h).symm
  · show image.Pt c.ScaleH c.ScaleH = image.Pt c.ScaleW c.ScaleH
    rw [h]

/-!
## Claim C2: line metrics aggregation
-/

/-- The source's accumulator `if lh < h then h else lh` is `max`, applied to
the heights of the glyph entries. -/
lemma foldl_if_max_pairs (l : List (Int × Char')) (a : Int) :
    l.foldl (fun b kc => if b < kc.2.Height then kc.2.Height else b) a
      = (l.map fun kc => kc.2.Height).foldl max a := by
  induction l generalizing a with
  | nil => rfl
  | cons h t ih =>
    simp only [List.foldl_cons, List.map_cons]
    rw [ih]
    rcases lt_or_le a h.2.Height with hlt | hle
    · rw [if_pos hlt, max_eq_right hlt.le]
    · rw [if_neg (not_lt.mpr hle), max_eq_left hle]

lemma foldl_max_init_le (l : List Int) (a : Int) : a ≤ l.foldl max a := by
  induction l generalizing a with
  | nil => exact le_refl a
  | cons h t ih => exact le_trans (le_max_left a h) (ih (max a h))

lemma foldl_max_mem_le (l : List Int) : ∀ (a x : Int), x ∈ l → x ≤ l.foldl max a := by
  induction l with
  | nil => intro a x hx; cases hx
  | cons h t ih =>
    intro a x hx
    rcases List.mem_cons.mp hx with rfl | hxt
    · exact le_trans (le_max_right a x) (foldl_max_init_le t (max a x))
    · exact ih (max a h) x hxt

lemma foldl_max_attained (l : List Int) (a : Int) :
    l.foldl max a = a ∨ l.foldl max a ∈ l := by
  induction l generalizing a with
  | nil => exact Or.inl rfl
  | cons h t ih =>
    rcases ih (max a h) with heq | hmem
    · rcases max_choice a h with ha | hh
      · exact Or.inl (by rw [List.foldl_cons, heq, ha])
      · exact Or.inr (by rw [List.foldl_cons, heq, hh]; exact List.mem_cons_self h t)
    · exact Or.inr (List.mem_cons_of_mem h hmem)

/-- The rotated line height is the max-with-floor-0 of the rotated heights. -/
lemma rotate_lineHeight (d : Descriptor) :
    d.Rotate.Common.LineHeight = (d.Rotate.Chars.map fun kc => kc.2.Height).foldl max 0 :=
  foldl_if_max_pairs d.Rotate.Chars 0

/-- The rotated heights are exactly the original widths, in order. -/
lemma rotate_heights_eq_widths (d : Descriptor) :
    (d.Rotate.Chars.map fun kc => kc.2.Height) = d.Chars.map fun kc => kc.2.Width := by
  show ((d.Chars.map fun kc => ((rotChar d.Common.ScaleH kc.2).ID, rotChar d.Common.ScaleH kc.2)).map
      fun kc => kc.2.Height) = _
  rw [List.map_map]
  rfl

/-- Claim C2 (amended): after `Rotate`, `base = lineHeight`, and `lineHeight`
is the maximum of `0` and the rotated glyph heights (the fold starts at `0`):
it bounds every rotated height — equivalently every original width — from
above, is attained by some rotated glyph unless it is `0`, and is `0` for an
empty Char mapping.  The rotated heights are exactly the original widths. -/
theorem claim_C2_line_metrics (d : Descriptor) :
    d.Rotate.Common.Base = d.Rotate.Common.LineHeight ∧
    0 ≤ d.Rotate.Common.LineHeight ∧
    (∀ kc ∈ d.Rotate.Chars, kc.2.Height ≤ d.Rotate.Common.LineHeight) ∧
    (∀ kc ∈ d.Chars, kc.2.Width ≤ d.Rotate.Common.LineHeight) ∧
    (d.Rotate.Common.LineHeight = 0 ∨
      ∃ kc ∈ d.Rotate.Chars, kc.2.Height = d.Rotate.Common.LineHeight) ∧
    (d.Rotate.Chars.map fun kc => kc.2.Height) = (d.Chars.map fun kc => kc.2.Width) ∧
    (d.Chars = [] → d.Rotate.Common.LineHeight = 0) := by
  have hL := rotate_lineHeight d
  have hW := rotate_heights_eq_widths d
  refine ⟨rfl, ?_, ?_, ?_, ?_, hW, ?_⟩
  · rw [hL]; exact foldl_max_init_le _ 0
  · intro kc hkc
    rw [hL]
    exact foldl_max_mem_le _ 0 _ (List.mem_map_of_mem (fun kc => kc.2.Height) hkc)
  · intro kc hkc
    rw [hL, hW]
    exact foldl_max_mem_le _ 0 _ (List.mem_map_of_mem (fun kc => kc.2.Width) hkc)
  · rcases foldl_max_attained (d.Rotate.Chars.map fun kc => kc.2.Height) 0 with h0 | hmem
    · exact Or.inl (by rw [hL, h0])
    · rcases List.mem_map.mp hmem with ⟨kc, hkc, hkc2⟩
      exact Or.inr ⟨kc, hkc, by rw [hL, hkc2]⟩
  · intro hnil
    rw [hL, hW, hnil]
    rfl

/-- Claim C2, witness: on the worked example the rotated line height and base
are `30` (the original glyph width), bounding the rotated height. -/
theorem claim_C2_line_metrics_witness :
    descEx.Rotate.Common.Base = descEx.Rotate.Common.LineHeight ∧
    0 ≤ descEx.Rotate.Common.LineHeight ∧
    (descEx.Rotate.Chars.map fun kc => kc.2.Height) = descEx.Chars.map fun kc => kc.2.Width :=
  ⟨(claim_C2_line_metrics descEx).1, (claim_C2_line_metrics descEx).2.1,
    (claim_C2_line_metrics descEx).2.2.2.2.2.1⟩

/-- Claim C2, counterexample to the claim as stated: for a descriptor whose
single glyph has width `-3`, the rotated heights are `{-3}`, whose maximum is
`-3`, but the code's fold starts at `0` and leaves `lineHeight = base = 0 ≠ -3`
— so `lineHeight` is not "the maximum of the rotated glyphs' heights" when
every rotated height is negative. -/
theorem claim_C2_line_metrics_cex :
    (dNeg.Rotate.Chars.map fun kc => kc.2.Height) = [(-3 : Int)] ∧
    dNeg.Rotate.Common.LineHeight = 0 ∧
    dNeg.Rotate.Common.Base = 0 ∧
    dNeg.Rotate.Common.LineHeight ≠ -3 := by
  refine ⟨by decide, by decide, by decide, by decide⟩

/-!
## Claims C5, C6: frame conditions and double rotation
-/

/-- Every entry of the Char mapping reappears after rotation, keyed by its
glyph's `ID`, with the glyph rotated at the post-swap canvas width. -/
lemma mem_rotate_chars (d : Descriptor) (kc : Int × Char') (hkc : kc ∈ d.Chars) :
    (kc.2.ID, rotChar d.Common.ScaleH kc.2) ∈ d.Rotate.Chars :=
  List.mem_map_of_mem
    (fun kc : Int × Char' => ((rotChar d.Common.ScaleH kc.2).ID, rotChar d.Common.ScaleH kc.2)) hkc

/-- Claim C5: `Rotate` leaves every glyph's `page` and `channel` (and `ID`)
unchanged, leaves the Kerning mapping and the Page mapping untouched, and
changes nothing in `Info` besides padding and spacing, nothing in `Common`
besides `ScaleW`, `ScaleH`, `LineHeight` and `Base` (the record-update
equations pin every other field to its original value). -/
theorem claim_C5_frame (d : Descriptor) :
    (∀ kc ∈ d.Chars, ∃ c', (kc.2.ID, c') ∈ d.Rotate.Chars ∧
      c'.ID = kc.2.ID ∧ c'.Page = kc.2.Page ∧ c'.Channel = kc.2.Channel) ∧
    d.Rotate.Kerning = d.Kerning ∧
    d.Rotate.Pages = d.Pages ∧
    d.Rotate.Info = { d.Info with
      Padding := d.Rotate.Info.Padding, Spacing := d.Rotate.Info.Spacing } ∧
    d.Rotate.Common = { d.Common with
      ScaleW := d.Rotate.Common.ScaleW, ScaleH := d.Rotate.Common.ScaleH,
      LineHeight := d.Rotate.Common.LineHeight, Base := d.Rotate.Common.Base } := by
  refine ⟨?_, rfl, rfl, rfl, rfl⟩
  intro kc hkc
  exact ⟨rotChar d.Common.ScaleH kc.2, mem_rotate_chars d kc hkc, rfl, rfl, rfl⟩

/-- Claim C5, witness: on the worked example the kerning map is untouched and
the glyph keeps `ID = 65`, `page = 0`, `channel = 15`. -/
theorem claim_C5_frame_witness :
    descEx.Rotate.Kerning = descEx.Kerning ∧
    ∃ c', ((65 : Int), c') ∈ descEx.Rotate.Chars ∧
      c'.ID = 65 ∧ c'.Page = 0 ∧ c'.Channel = 15 :=
  ⟨(claim_C5_frame descEx).2.1, (claim_C5_frame descEx).1 (65, glyphEx) (by decide)⟩

/-- Claim C6: applying `Rotate` twice is not the identity (witnessed by the
worked example), but equals one 180° rotation of the documented per-field
rules: `ScaleW`/`ScaleH` return to their original pairing, the padding tuple
advances two clockwise steps, and every glyph ends at
`x = scaleW - x - width`, `y = scaleH - y - height` with its box and offsets
restored and `xadvance = width + xoffset`. -/
theorem claim_C6_double_rotation :
    descEx.Rotate.Rotate ≠ descEx ∧
    ∀ d : Descriptor,
      d.Rotate.Rotate.Common.ScaleW = d.Common.ScaleW ∧
      d.Rotate.Rotate.Common.ScaleH = d.Common.ScaleH ∧
      d.Rotate.Rotate.Info.Padding
        = ⟨d.Info.Padding.Down, d.Info.Padding.Left, d.Info.Padding.Up, d.Info.Padding.Right⟩ ∧
      ∀ kc ∈ d.Chars, ∃ c', (kc.2.ID, c') ∈ d.Rotate.Rotate.Chars ∧
        c'.X = d.Common.ScaleW - kc.2.X - kc.2.Width ∧
        c'.Y = d.Common.ScaleH - kc.2.Y - kc.2.Height ∧
        c'.Width = kc.2.Width ∧
        c'.Height = kc.2.Height ∧
        c'.XOffset = kc.2.XOffset ∧
        c'.YOffset = kc.2.YOffset ∧
        c'.XAdvance = kc.2.Width + kc.2.XOffset := by
  constructor
  · decide
  · intro d
    refine ⟨rfl, rfl, rfl, ?_⟩
    intro kc hkc
    refine ⟨rotChar d.Common.ScaleW (rotChar d.Common.ScaleH kc.2), ?_,
      rfl, rfl, rfl, rfl, rfl, rfl, rfl⟩
    exact mem_rotate_chars d.Rotate (kc.2.ID, rotChar d.Common.ScaleH kc.2)
      (mem_rotate_chars d kc hkc)

/-- Claim C6, witness: the worked-example glyph ends, after two rotations, at
`x = 256 - 10 - 30`, `y = 128 - 20 - 5` with box and offsets restored and
`xadvance = 30 + 1`. -/
theorem claim_C6_double_rotation_witness :
    ∃ c', ((65 : Int), c') ∈ descEx.Rotate.Rotate.Chars ∧
      c'.X = 256 - 10 - 30 ∧
      c'.Y = 128 - 20 - 5 ∧
      c'.Width = 30 ∧
      c'.Height = 5 ∧
      c'.XOffset = 1 ∧
      c'.YOffset = 2 ∧
      c'.XAdvance = 30 + 1 :=
  (claim_C6_double_rotation.2 descEx).2.2.2 (65, glyphEx) (by decide)

/-!
## Claims C7, C8: the diagnostic serializer
-/

lemma string_foldl_append (l : List String) (x : String) :
    l.foldl (fun r s => r ++ s) x = x ++ String.join l := by
  induction l generalizing x with
  | nil => exact (String.append_empty x).symm
  | cons h t ih =>
    show t.foldl _ (x ++ h) = x ++ String.join (h :: t)
    rw [ih]
    have hj : String.join (h :: t) = h ++ String.join t := by
      show t.foldl _ ("" ++ h) = h ++ String.join t
      rw [String.empty_append, ih]
    rw [hj, String.append_assoc]

lemma join_cons (s : String) (l : List String) :
    String.join (s :: l) = s ++ String.join l := by
  show l.foldl _ ("" ++ s) = s ++ String.join l
  rw [String.empty_append, string_foldl_append]

/-- The serializer's `+=`-accumulation over a block of records is the initial
string followed by the join of the rendered lines. -/
lemma foldl_render_block {α : Type} (f : α → String) (l : List α) (init : String) :
    l.foldl (fun acc x => acc ++ f x ++ "\n") init
      = init ++ String.join (l.map fun x => f x ++ "\n") := by
  induction l generalizing init with
  | nil => exact (String.append_empty init).symm
  | cons h t ih =>
    show t.foldl _ (init ++ f h ++ "\n") = _
    rw [ih]
    simp only [List.map_cons, join_cons, String.append_assoc]

/-- Claim C7: the serializer output is, in order, the info line, the common
line (whose `pages=` field is the live size of the Page mapping), one line
per Page entry, a `chars count=<size of the Char mapping>` line, then one
line per Char entry — and it contains no kerning data whatsoever: the output
is invariant under replacing the Kerning mapping by anything. -/
theorem claim_C7_serializer_structure (d : Descriptor) :
    d.render
      = d.Info.render ++ "\n" ++ printCommon d.Common d.Pages ++ "\n"
        ++ String.join (d.Pages.map fun kp => kp.2.render ++ "\n")
        ++ ("chars count=" ++ toString (d.Chars.length : Int) ++ "\n")
        ++ String.join (d.Chars.map fun kc => kc.2.render ++ "\n") ∧
    (∃ s, printCommon d.Common d.Pages
        = s ++ " pages=" ++ toString (d.Pages.length : Int)
            ++ " packed=" ++ toString (boolToInt d.Common.Packed)
            ++ " alphaChnl=" ++ toString d.Common.AlphaChannel
            ++ " redChnl=" ++ toString d.Common.RedChannel
            ++ " greenChnl=" ++ toString d.Common.GreenChannel
            ++ " blueChnl=" ++ toString d.Common.BlueChannel) ∧
    ∀ K : List (CharPair × Kerning), ({ d with Kerning := K } : Descriptor).render = d.render := by
  refine ⟨?_, ?_, fun _ => rfl⟩
  · show d.Info.render ++ "\n" ++ printCommon d.Common d.Pages ++ "\n"
        ++ (d.Pages.foldl (fun acc kp => acc ++ kp.2.render ++ "\n") "")
        ++ (d.Chars.foldl (fun acc kc => acc ++ kc.2.render ++ "\n")
            ("chars count=" ++ toString (d.Chars.length : Int) ++ "\n")) = _
    rw [foldl_render_block, foldl_render_block, String.empty_append]
    simp only [String.append_assoc]
  · refine ⟨"common lineHeight=" ++ toString d.Common.LineHeight
      ++ " base=" ++ toString d.Common.Base
      ++ " scaleW=" ++ toString d.Common.ScaleW
      ++ " scaleH=" ++ toString d.Common.ScaleH, ?_⟩
    show "common lineHeight=" ++ toString d.Common.LineHeight
        ++ " base=" ++ toString d.Common.Base
        ++ " scaleW=" ++ toString d.Common.ScaleW
        ++ " scaleH=" ++ toString d.Common.ScaleH
        ++ " pages=" ++ toString (d.Pages.length : Int)
        ++ " packed=" ++ toString (boolToInt d.Common.Packed)
        ++ " alphaChnl=" ++ toString d.Common.AlphaChannel
        ++ " redChnl=" ++ toString d.Common.RedChannel
        ++ " greenChnl=" ++ toString d.Common.GreenChannel
        ++ " blueChnl=" ++ toString d.Common.BlueChannel = _
    simp only [String.append_assoc]

/-- Claim C8 (amended): the serializer output is a pure function of the
descriptor value together with the iteration order its mappings are
enumerated in — equal Info, Common, Page and Char components (the Kerning
mapping is irrelevant, it is never read) give identical output. -/
theorem claim_C8_render_deterministic (d1 d2 : Descriptor)
    (hi : d1.Info = d2.Info) (hc : d1.Common = d2.Common)
    (hp : d1.Pages = d2.Pages) (hch : d1.Chars = d2.Chars) :
    d1.render = d2.render := by
  have h2 : d2 = { d1 with Kerning := d2.Kerning } := by
    cases d1
    cases d2
    simp_all
  rw [h2]
  rfl

/-- Claim C8, witness: a descriptor and its kerning-stripped copy render to
the same output. -/
theorem claim_C8_render_deterministic_witness :
    descEx.render = ({ descEx with Kerning := [] } : Descriptor).render :=
  claim_C8_render_deterministic descEx { descEx with Kerning := [] } rfl rfl rfl rfl

/-- Two glyphs used to witness iteration-order sensitivity. -/
def charA : Char' :=
  ⟨65, 0, 0, 1, 1, 0, 0, 1, 0, 15⟩

/-- Second glyph for the iteration-order counterexample. -/
def charB : Char' :=
  ⟨66, 2, 2, 3, 3, 0, 0, 3, 0, 15⟩

/-- A two-glyph descriptor enumerated in one order. -/
def dPermA : Descriptor :=
  { (default : Descriptor) with Chars := [(65, charA), (66, charB)] }

/-- The same map value (same entries) enumerated in the other order. -/
def dPermB : Descriptor :=
  { (default : Descriptor) with Chars := [(66, charB), (65, charA)] }

set_option maxRecDepth 8192 in
/-- Claim C8, counterexample to the claim as stated: `dPermA` and `dPermB`
represent the same Go Descriptor value (identical Info, Common, Pages and
Kerning; Char mappings with exactly the same entries, merely enumerated in a
different order — Go map iteration order is not part of the map value), yet
the serializer outputs differ: the per-Char lines appear in different orders,
so two invocations of `String` on one map value need not agree. -/
theorem claim_C8_render_cex :
    dPermA.Info = dPermB.Info ∧
    dPermA.Common = dPermB.Common ∧
    dPermA.Pages = dPermB.Pages ∧
    dPermA.Kerning = dPermB.Kerning ∧
    List.Perm dPermA.Chars dPermB.Chars ∧
    dPermA.render ≠ dPermB.render := by
  refine ⟨rfl, rfl, rfl, rfl, ?_, ?_⟩
  · decide
  · decide

/-!
## Claim C9: malformed required integers abort the parse

The error-shape lemmas below establish not only that the parse fails, but
that the reported error identifies the offending line and key: `e.line` is a
line of the input, `e.tag` is that line's tag, and `MalformedAt e.line e`
says `e.key` names an attribute actually scanned from `e.line` whose value
is genuinely malformed (or that the line itself fails to scan, reported with
the empty key).
-/

lemma intOf_none (tag key line : String) (v : AttrValue) (hv : attrInt v = none) :
    intOf tag key line v = .error (mkErr tag key line) := by
  unfold intOf
  rw [hv]

lemma intOf_err (tag key line : String) (v : AttrValue) (e : ParseError)
    (h : intOf tag key line v = .error e) :
    e = mkErr tag key line ∧ attrInt v = none := by
  unfold intOf at h
  cases hv : attrInt v with
  | some n => rw [hv] at h; exact absurd h (by simp)
  | none => rw [hv] at h; exact ⟨(Except.error.inj h).symm, rfl⟩

lemma applyInfoAttr_bad (line : String) (i : Info) (kv : String × AttrValue)
    (hk : kv.1 ∈ requiredIntKeys "info") (hv : attrInt kv.2 = none) :
    applyInfoAttr line i kv = .error (mkErr "info" kv.1 line) := by
  unfold applyInfoAttr
  rw [if_pos hk, intOf_none "info" kv.1 line kv.2 hv]
  rfl

lemma applyInfoAttr_err (line : String) (i : Info) (kv : String × AttrValue) (e : ParseError)
    (h : applyInfoAttr line i kv = .error e) :
    e = mkErr "info" kv.1 line ∧ KeyMalformed "info" kv.1 kv.2 := by
  unfold applyInfoAttr at h
  split at h
  · rename_i hk
    cases hi : intOf "info" kv.1 line kv.2 with
    | ok n => rw [hi] at h; exact absurd h (by simp [Except.map])
    | error e' =>
      rw [hi] at h
      obtain ⟨he', hnone⟩ := intOf_err "info" kv.1 line kv.2 e' hi
      rw [← Except.error.inj h]
      exact ⟨he', Or.inl ⟨hk, hnone⟩⟩
  · split at h
    · exact absurd h (by simp)
    · split at h
      · exact absurd h (by simp)
      · split at h
        · rename_i hpad
          split at h
          · exact absurd h (by simp)
          · rename_i hnone4
            rw [← Except.error.inj h]
            exact ⟨rfl, Or.inr ⟨rfl, Or.inl ⟨hpad, hnone4⟩⟩⟩
        · split at h
          · rename_i hspc
            split at h
            · exact absurd h (by simp)
            · rename_i hnone2
              rw [← Except.error.inj h]
              exact ⟨rfl, Or.inr ⟨rfl, Or.inr ⟨hspc, hnone2⟩⟩⟩
          · exact absurd h (by simp)

lemma applyCommonAttr_bad (line : String) (c : Common) (kv : String × AttrValue)
    (hk : kv.1 ∈ requiredIntKeys "common") (hv : attrInt kv.2 = none) :
    applyCommonAttr line c kv = .error (mkErr "common" kv.1 line) := by
  unfold applyCommonAttr
  rw [if_pos hk, intOf_none "common" kv.1 line kv.2 hv]
  rfl

lemma applyCommonAttr_err (line : String) (c : Common) (kv : String × AttrValue) (e : ParseError)
    (h : applyCommonAttr line c kv = .error e) :
    e = mkErr "common" kv.1 line ∧ KeyMalformed "common" kv.1 kv.2 := by
  unfold applyCommonAttr at h
  split at h
  · rename_i hk
    cases hi : intOf "common" kv.1 line kv.2 with
    | ok n => rw [hi] at h; exact absurd h (by simp [Except.map])
    | error e' =>
      rw [hi] at h
      obtain ⟨he', hnone⟩ := intOf_err "common" kv.1 line kv.2 e' hi
      rw [← Except.error.inj h]
      exact ⟨he', Or.inl ⟨hk, hnone⟩⟩
  · exact absurd h (by simp)

lemma applyPageAttr_bad (line : String) (p : Page) (kv : String × AttrValue)
    (hk : kv.1 ∈ requiredIntKeys "page") (hv : attrInt kv.2 = none) :
    applyPageAttr line p kv = .error (mkErr "page" kv.1 line) := by
  unfold applyPageAttr
  rw [if_pos hk, intOf_none "page" kv.1 line kv.2 hv]
  rfl

lemma applyPageAttr_err (line : String) (p : Page) (kv : String × AttrValue) (e : ParseError)
    (h : applyPageAttr line p kv = .error e) :
    e = mkErr "page" kv.1 line ∧ KeyMalformed "page" kv.1 kv.2 := by
  unfold applyPageAttr at h
  split at h
  · rename_i hk
    cases hi : intOf "page" kv.1 line kv.2 with
    | ok n => rw [hi] at h; exact absurd h (by simp [Except.map])
    | error e' =>
      rw [hi] at h
      obtain ⟨he', hnone⟩ := intOf_err "page" kv.1 line kv.2 e' hi
      rw [← Except.error.inj h]
      exact ⟨he', Or.inl ⟨hk, hnone⟩⟩
  · split at h
    · exact absurd h (by simp)
    · exact absurd h (by simp)

lemma applyCharAttr_bad (line : String) (c : Char') (kv : String × AttrValue)
    (hk : kv.1 ∈ requiredIntKeys "char") (hv : attrInt kv.2 = none) :
    applyCharAttr line c kv = .error (mkErr "char" kv.1 line) := by
  unfold applyCharAttr
  rw [if_pos hk, intOf_none "char" kv.1 line kv.2 hv]
  rfl

lemma applyCharAttr_err (line : String) (c : Char') (kv : String × AttrValue) (e : ParseError)
    (h : applyCharAttr line c kv = .error e) :
    e = mkErr "char" kv.1 line ∧ KeyMalformed "char" kv.1 kv.2 := by
  unfold applyCharAttr at h
  split at h
  · rename_i hk
    cases hi : intOf "char" kv.1 line kv.2 with
    | ok n => rw [hi] at h; exact absurd h (by simp [Except.map])
    | error e' =>
      rw [hi] at h
      obtain ⟨he', hnone⟩ := intOf_err "char" kv.1 line kv.2 e' hi
      rw [← Except.error.inj h]
      exact ⟨he', Or.inl ⟨hk, hnone⟩⟩
  · exact absurd h (by simp)

lemma applyKerningAttr_bad (line : String) (ck : CharPair × Kerning) (kv : String × AttrValue)
    (hk : kv.1 ∈ requiredIntKeys "kerning") (hv : attrInt kv.2 = none) :
    applyKerningAttr line ck kv = .error (mkErr "kerning" kv.1 line) := by
  unfold applyKerningAttr
  rw [if_pos hk, intOf_none "kerning" kv.1 line kv.2 hv]
  rfl

lemma applyKerningAttr_err (line : String) (ck : CharPair × Kerning) (kv : String × AttrValue)
    (e : ParseError) (h : applyKerningAttr line ck kv = .error e) :
    e = mkErr "kerning" kv.1 line ∧ KeyMalformed "kerning" kv.1 kv.2 := by
  unfold applyKerningAttr at h
  split at h
  · rename_i hk
    cases hi : intOf "kerning" kv.1 line kv.2 with
    | ok n => rw [hi] at h; exact absurd h (by simp [Except.map])
    | error e' =>
      rw [hi] at h
      obtain ⟨he', hnone⟩ := intOf_err "kerning" kv.1 line kv.2 e' hi
      rw [← Except.error.inj h]
      exact ⟨he', Or.inl ⟨hk, hnone⟩⟩
  · exact absurd h (by simp)

lemma applyCountAttr_bad (tag line : String) (n : Int) (kv : String × AttrValue)
    (hk : kv.1 ∈ requiredIntKeys tag) (hv : attrInt kv.2 = none) :
    applyCountAttr tag line n kv = .error (mkErr tag kv.1 line) := by
  unfold applyCountAttr
  rw [if_pos hk, intOf_none tag kv.1 line kv.2 hv]

lemma applyCountAttr_err (tag line : String) (n : Int) (kv : String × AttrValue) (e : ParseError)
    (h : applyCountAttr tag line n kv = .error e) :
    e = mkErr tag kv.1 line ∧ KeyMalformed tag kv.1 kv.2 := by
  unfold applyCountAttr at h
  split at h
  · rename_i hk
    obtain ⟨he, hnone⟩ := intOf_err tag kv.1 line kv.2 e h
    exact ⟨he, Or.inl ⟨hk, hnone⟩⟩
  · exact absurd h (by simp)

/-- Any error escaping an attribute fold was produced by one of the folded
attributes, inheriting the per-attribute error relation. -/
lemma foldlM_attrs_err_mem {α : Type} (applyF : α → String × AttrValue → Except ParseError α)
    (R : String × AttrValue → ParseError → Prop)
    (hshape : ∀ a kv e, applyF a kv = .error e → R kv e) :
    ∀ (attrs : List (String × AttrValue)) (a : α) (e : ParseError),
      attrs.foldlM applyF a = .error e → ∃ kv ∈ attrs, R kv e := by
  intro attrs
  induction attrs with
  | nil =>
    intro a e h
    have h' : (Except.ok a : Except ParseError α) = .error e := h
    exact absurd h' (by simp)
  | cons kv t ih =>
    intro a e h
    rw [List.foldlM_cons] at h
    cases hstep : applyF a kv with
    | error e' =>
      rw [hstep] at h
      have h' : (Except.error e' : Except ParseError α) = .error e := h
      have he : e' = e := Except.error.inj h'
      exact ⟨kv, List.mem_cons_self kv t, he ▸ hshape a kv e' hstep⟩
    | ok a' =>
      rw [hstep] at h
      rcases ih a' e h with ⟨kv', hm, hR⟩
      exact ⟨kv', List.mem_cons_of_mem kv hm, hR⟩

/-- If some attribute of the list fails (for every accumulator state), the
whole fold fails. -/
lemma foldlM_attrs_bad {α : Type} (applyF : α → String × AttrValue → Except ParseError α)
    (kv : String × AttrValue)
    (hbad : ∀ a : α, ∃ e, applyF a kv = .error e) :
    ∀ attrs : List (String × AttrValue), kv ∈ attrs →
      ∀ a : α, ∃ e, attrs.foldlM applyF a = .error e := by
  intro attrs
  induction attrs with
  | nil => intro hmem; cases hmem
  | cons hd t ih =>
    intro hmem a
    rcases List.mem_cons.mp hmem with rfl | hmemt
    · rcases hbad a with ⟨e, he⟩
      refine ⟨e, ?_⟩
      rw [List.foldlM_cons, he]
      rfl
    · cases hstep : applyF a hd with
      | error e' =>
        refine ⟨e', ?_⟩
        rw [List.foldlM_cons, hstep]
        rfl
      | ok a' =>
        rcases ih hmemt a' with ⟨e, he⟩
        refine ⟨e, ?_⟩
        rw [List.foldlM_cons, hstep]
        exact he

lemma scanned_ok (tag line : String) (attrs : List (String × AttrValue))
    (hscan : scanAttrs (restOf line) = some attrs) : scanned tag line = .ok attrs := by
  unfold scanned
  rw [hscan]

lemma scanned_ok_inv (tag line : String) (attrs : List (String × AttrValue))
    (h : scanned tag line = .ok attrs) : scanAttrs (restOf line) = some attrs := by
  unfold scanned at h
  split at h
  · rename_i a heq
    exact heq.trans (congrArg some (Except.ok.inj h))
  · exact absurd h (by simp)

lemma scanned_err (tag line : String) (e : ParseError) (h : scanned tag line = .error e) :
    e = mkErr tag "" line ∧ scanAttrs (restOf line) = none := by
  unfold scanned at h
  split at h
  · exact absurd h (by simp)
  · rename_i heq
    exact ⟨(Except.error.inj h).symm, heq⟩

/-- Any error escaping one tag branch of `parseLine` either reports a scan
failure of the line (empty key) or carries the key of an attribute scanned
from the line that satisfies the per-attribute malformedness relation. -/
lemma bindfold_err {α : Type} {β : Type} (tag line : String)
    (applyF : α → String × AttrValue → Except ParseError α) (g : α → β) (a0 : α)
    (Q : String → AttrValue → Prop)
    (hshape : ∀ a kv e, applyF a kv = .error e → e = mkErr tag kv.1 line ∧ Q kv.1 kv.2)
    (e : ParseError)
    (h : (scanned tag line).bind (fun attrs => (attrs.foldlM applyF a0).map g) = .error e) :
    e = mkErr tag "" line ∧ scanAttrs (restOf line) = none ∨
      ∃ attrs v, scanAttrs (restOf line) = some attrs ∧ (e.key, v) ∈ attrs ∧
        e = mkErr tag e.key line ∧ Q e.key v := by
  cases hscan : scanned tag line with
  | error e' =>
    rw [hscan] at h
    have h' : (Except.error e' : Except ParseError β) = .error e := h
    rw [← Except.error.inj h']
    exact Or.inl (scanned_err tag line e' hscan)
  | ok attrs =>
    rw [hscan] at h
    have h2 : (attrs.foldlM applyF a0).map g = Except.error e := h
    cases hfold : attrs.foldlM applyF a0 with
    | ok a => rw [hfold] at h2; exact absurd h2 (by simp [Except.map])
    | error e' =>
      rw [hfold] at h2
      have h3 : (Except.error e' : Except ParseError β) = .error e := h2
      have he : e' = e := Except.error.inj h3
      rcases foldlM_attrs_err_mem applyF
          (fun kv e => e = mkErr tag kv.1 line ∧ Q kv.1 kv.2) hshape attrs a0 e' hfold
        with ⟨kv, hm, hkv, hQ⟩
      rw [he] at hkv
      refine Or.inr ⟨attrs, kv.2, scanned_ok_inv tag line attrs hscan, ?_, ?_, ?_⟩
      · rw [hkv]
        exact hm
      · rw [hkv]
        rfl
      · rw [hkv]
        exact hQ

/-- Shared conclusion for every recognized-tag branch of `parseLine`: the
error is malformed-value, on this line, with this line's tag, and identifies
a genuinely malformed key of the line. -/
lemma branch_shape {α : Type} {β : Type} (tg l : String)
    (applyF : α → String × AttrValue → Except ParseError α) (g : α → β) (a0 : α)
    (hshape : ∀ a kv e, applyF a kv = .error e → e = mkErr tg kv.1 l ∧ KeyMalformed tg kv.1 kv.2)
    (heq : tagOf l = tg) (e : ParseError)
    (h : (scanned tg l).bind (fun attrs => (attrs.foldlM applyF a0).map g) = .error e) :
    e.kind = .malformedValue ∧ e.line = l ∧ e.tag = tagOf l ∧ MalformedAt l e := by
  rcases bindfold_err tg l applyF g a0 (KeyMalformed tg) hshape e h with
    ⟨hE, hnone⟩ | ⟨attrs, v, hscan, hmem, hE, hQ⟩
  · exact ⟨congrArg ParseError.kind hE, congrArg ParseError.line hE,
      (congrArg ParseError.tag hE).trans heq.symm,
      Or.inl ⟨congrArg ParseError.key hE, hnone⟩⟩
  · refine ⟨congrArg ParseError.kind hE, congrArg ParseError.line hE,
      (congrArg ParseError.tag hE).trans heq.symm, Or.inr ⟨attrs, v, hscan, hmem, ?_⟩⟩
    rw [heq]
    exact hQ

/-- Any error escaping `parseLine` is a malformed-value error carrying the
offending line, its tag, and a key whose value on that line is genuinely
malformed (`MalformedAt`). -/
lemma parseLine_err (l : String) (e : ParseError) (h : parseLine l = .error e) :
    e.kind = .malformedValue ∧ e.line = l ∧ e.tag = tagOf l ∧ MalformedAt l e := by
  unfold parseLine at h
  split at h
  · rename_i heq
    exact branch_shape "info" l (applyInfoAttr l) LineUpd.setInfo default
      (applyInfoAttr_err l) heq e h
  · rename_i heq
    exact branch_shape "common" l (applyCommonAttr l) LineUpd.setCommon default
      (applyCommonAttr_err l) heq e h
  · rename_i heq
    exact branch_shape "page" l (applyPageAttr l) LineUpd.addPage default
      (applyPageAttr_err l) heq e h
  · rename_i heq
    exact branch_shape "chars" l (applyCountAttr "chars" l) LineUpd.charsCount 0
      (applyCountAttr_err "chars" l) heq e h
  · rename_i heq
    exact branch_shape "char" l (applyCharAttr l) LineUpd.addChar default
      (applyCharAttr_err l) heq e h
  · rename_i heq
    exact branch_shape "kernings" l (applyCountAttr "kernings" l) LineUpd.kerningsCount 0
      (applyCountAttr_err "kernings" l) heq e h
  · rename_i heq
    exact branch_shape "kerning" l (applyKerningAttr l)
      (fun ck => LineUpd.addKerning ck.1 ck.2) default
      (applyKerningAttr_err l) heq e h
  · exact absurd h (by simp)

/-- If a scanned attribute of the line fails for every state, the tag branch
fails. -/
lemma bindfold_bad {α : Type} {β : Type} (tag line : String)
    (applyF : α → String × AttrValue → Except ParseError α) (g : α → β) (a0 : α)
    (attrs : List (String × AttrValue))
    (hscan : scanAttrs (restOf line) = some attrs)
    (kv : String × AttrValue) (hmem : kv ∈ attrs)
    (hbad : ∀ a : α, ∃ e, applyF a kv = .error e) :
    ∃ e, (scanned tag line).bind (fun attrs => (attrs.foldlM applyF a0).map g) = .error e := by
  rcases foldlM_attrs_bad applyF kv hbad attrs hmem a0 with ⟨e, he⟩
  refine ⟨e, ?_⟩
  rw [scanned_ok tag line attrs hscan]
  show (attrs.foldlM applyF a0).map g = .error e
  rw [he]
  rfl

/-- A line with a malformed required integer attribute makes `parseLine`
fail. -/
lemma parseLine_bad (l : String) (hb : BadIntLine l) :
    ∃ e, parseLine l = .error e := by
  obtain ⟨htag, attrs, hscan, kv, hmem, hreq, hnone⟩ := hb
  simp only [knownTags, List.mem_cons, List.not_mem_nil, or_false] at htag
  rcases htag with ht | ht | ht | ht | ht | ht | ht
  · rcases bindfold_bad "info" l (applyInfoAttr l) LineUpd.setInfo default attrs hscan kv hmem
        (fun a => ⟨mkErr "info" kv.1 l, applyInfoAttr_bad l a kv (ht ▸ hreq) hnone⟩)
      with ⟨e, he⟩
    refine ⟨e, ?_⟩
    unfold parseLine
    rw [ht]
    exact he
  · rcases bindfold_bad "common" l (applyCommonAttr l) LineUpd.setCommon default attrs hscan kv
        hmem (fun a => ⟨mkErr "common" kv.1 l, applyCommonAttr_bad l a kv (ht ▸ hreq) hnone⟩)
      with ⟨e, he⟩
    refine ⟨e, ?_⟩
    unfold parseLine
    rw [ht]
    exact he
  · rcases bindfold_bad "page" l (applyPageAttr l) LineUpd.addPage default attrs hscan kv hmem
        (fun a => ⟨mkErr "page" kv.1 l, applyPageAttr_bad l a kv (ht ▸ hreq) hnone⟩)
      with ⟨e, he⟩
    refine ⟨e, ?_⟩
    unfold parseLine
    rw [ht]
    exact he
  · rcases bindfold_bad "chars" l (applyCountAttr "chars" l) LineUpd.charsCount 0 attrs hscan kv
        hmem (fun a => ⟨mkErr "chars" kv.1 l, applyCountAttr_bad "chars" l a kv (ht ▸ hreq) hnone⟩)
      with ⟨e, he⟩
    refine ⟨e, ?_⟩
    unfold parseLine
    rw [ht]
    exact he
  · rcases bindfold_bad "char" l (applyCharAttr l) LineUpd.addChar default attrs hscan kv hmem
        (fun a => ⟨mkErr "char" kv.1 l, applyCharAttr_bad l a kv (ht ▸ hreq) hnone⟩)
      with ⟨e, he⟩
    refine ⟨e, ?_⟩
    unfold parseLine
    rw [ht]
    exact he
  · rcases bindfold_bad "kernings" l (applyCountAttr "kernings" l) LineUpd.kerningsCount 0 attrs
        hscan kv hmem
        (fun a => ⟨mkErr "kernings" kv.1 l, applyCountAttr_bad "kernings" l a kv (ht ▸ hreq) hnone⟩)
      with ⟨e, he⟩
    refine ⟨e, ?_⟩
    unfold parseLine
    rw [ht]
    exact he
  · rcases bindfold_bad "kerning" l (applyKerningAttr l)
        (fun ck => LineUpd.addKerning ck.1 ck.2) default attrs hscan kv hmem
        (fun a => ⟨mkErr "kerning" kv.1 l, applyKerningAttr_bad l a kv (ht ▸ hreq) hnone⟩)
      with ⟨e, he⟩
    refine ⟨e, ?_⟩
    unfold parseLine
    rw [ht]
    exact he

/-- Propagation over the line fold: one bad line anywhere makes the whole
sequential pass fail, and the reported error identifies an input line, its
tag, and a genuinely malformed key of that line. -/
lemma foldLines_err (ls : List String) :
    (∃ l ∈ ls, BadIntLine l) → ∀ d : Descriptor,
      ∃ e, ls.foldlM (fun d l => (parseLine l).map (applyUpd d)) d = .error e
        ∧ e.kind = .malformedValue ∧ e.line ∈ ls ∧ e.tag = tagOf e.line
        ∧ MalformedAt e.line e := by
  induction ls with
  | nil =>
    rintro ⟨l, hl, -⟩
    cases hl
  | cons l0 t ih =>
    rintro ⟨l, hl, hbadl⟩ d
    rcases List.mem_cons.mp hl with rfl | hlt
    · rcases parseLine_bad l hbadl with ⟨e, he⟩
      rcases parseLine_err l e he with ⟨hk, hline, htag, hmal⟩
      refine ⟨e, ?_, hk, ?_, ?_, ?_⟩
      · rw [List.foldlM_cons, he]
        rfl
      · rw [hline]
        exact List.mem_cons_self l t
      · rw [hline]
        exact htag
      · rw [hline]
        exact hmal
    · cases hstep : parseLine l0 with
      | error e0 =>
        rcases parseLine_err l0 e0 hstep with ⟨hk, hline, htag, hmal⟩
        refine ⟨e0, ?_, hk, ?_, ?_, ?_⟩
        · rw [List.foldlM_cons, hstep]
          rfl
        · rw [hline]
          exact List.mem_cons_self l0 t
        · rw [hline]
          exact htag
        · rw [hline]
          exact hmal
      | ok upd =>
        rcases ih ⟨l, hlt, hbadl⟩ (applyUpd d upd) with ⟨e, he, hk, hline, htag, hmal⟩
        refine ⟨e, ?_, hk, List.mem_cons_of_mem l0 hline, htag, hmal⟩
        rw [List.foldlM_cons, hstep]
        exact he

/-- Claim C9: for every input stream containing a line in which a required
integer-valued attribute holds a token that does not decode as an integer,
parsing fails with a malformed-value `ParseError` that identifies the line
and key: the reported line is a line of the input, the reported tag is that
line's tag, and the reported key names an attribute scanned from that line
whose value is genuinely malformed (`MalformedAt`; the first failing line of
the stream is the one reported).  No Descriptor is returned — the parse
yields exactly the error, never a Descriptor. -/
theorem claim_C9_malformed_value (input : String)
    (hbad : ∃ l ∈ splitLines input, BadIntLine l) :
    (∃ e, parseDescriptor input = .error e ∧ e.kind = .malformedValue
      ∧ e.line ∈ splitLines input ∧ e.tag = tagOf e.line ∧ MalformedAt e.line e) ∧
    ∀ d : Descriptor, parseDescriptor input ≠ .ok d := by
  have h := foldLines_err (splitLines input) hbad emptyDescriptor
  refine ⟨h, ?_⟩
  rcases h with ⟨e, he, -⟩
  intro d hd
  have hd' : (splitLines input).foldlM (fun d l => (parseLine l).map (applyUpd d)) emptyDescriptor
      = .ok d := hd
  rw [he] at hd'
  exact absurd hd' (by simp)

/-- An input whose `char` line carries the non-numeric token `x=abc`. -/
def badInput : String :=
  "info face=\"Arial\" size=32\nchar id=65 x=abc y=0\n"

set_option maxRecDepth 8192 in
/-- Claim C9, witness: on the concrete input with a `char` line whose `x=`
value is non-numeric, parsing fails with a malformed-value error identifying
an input line, its tag, and a malformed key of that line, and no Descriptor
is returned; concretely, the error is exactly the malformed-value error for
key `x` of tag `char` on the line `char id=65 x=abc y=0`. -/
theorem claim_C9_malformed_value_witness :
    ((∃ e, parseDescriptor badInput = .error e ∧ e.kind = .malformedValue
      ∧ e.line ∈ splitLines badInput ∧ e.tag = tagOf e.line ∧ MalformedAt e.line e) ∧
    ∀ d : Descriptor, parseDescriptor badInput ≠ .ok d) ∧
    parseDescriptor badInput = .error (mkErr "char" "x" "char id=65 x=abc y=0") :=
  ⟨claim_C9_malformed_value badInput
    ⟨"char id=65 x=abc y=0", by decide,
      by decide,
      ⟨[("id", AttrValue.raw "65"), ("x", AttrValue.raw "abc"), ("y", AttrValue.raw "0")],
        by decide,
        ("x", AttrValue.raw "abc"), by decide, by decide, by decide⟩⟩,
    rfl⟩
